import Mathlib

/-!
Shallow embedding of the `chef` app's views (`src/chef/views.py`) for the
`django_mealplanner` repository, together with proofs about the behaviours
the specification claims.

Conventions of the embedding:
* Users are identified by a natural number; an object's `owner` column is an
  `Option Nat` (`none` models SQL NULL, i.e. the owner has not been set yet).
* Dates are integers counting days, so `timedelta(days=7)` is `+ 7`.
* A Django queryset evaluation is modelled as a pure function from the list
  of stored rows to the list of rows the template receives.
* The one relevant session key, `special_success_url`, is modelled as an
  `Option String` (`none` = key absent).
* Helpers that live in files outside the provided sources
  (`chef/helpers.py`, `chef/models.py`, the URLconf) are modelled from the
  spec; each such definition says so in its doc comment.
-/

/-- A stored `Meal` row: a reference to a dish, a scheduled date and an
owner (`none` models an owner column that was never set). -/
structure Meal where
  id : Nat
  dish : Nat
  date : Int
  owner : Option Nat
deriving DecidableEq, Repr

/-- A stored `Dish` row: title, free-text body, the
`exclude_from_suggestions` flag, and an owner. -/
structure Dish where
  id : Nat
  owner : Option Nat
  title : String
  text : String
  exclude_from_suggestions : Bool
deriving DecidableEq, Repr

/-! ### Generic insertion sort, modelling `order_by` / sorted querysets -/

/-- Insert `x` into `l` before the first element `y` with `¬ le x y`. -/
def insertLe {α : Type} (le : α → α → Bool) (x : α) : List α → List α
  | [] => [x]
  | y :: ys => if le x y then x :: y :: ys else y :: insertLe le x ys

/-- Insertion sort by the boolean comparison `le`. -/
def sortLe {α : Type} (le : α → α → Bool) : List α → List α
  | [] => []
  | x :: xs => insertLe le x (sortLe le xs)

/-! ### `meal_schedule` (views.py lines 24-57) -/

/-- Modelled from the spec: `meals_for_week` lives in `chef/helpers.py`,
which is not part of the provided sources.  The spec says the schedule
shows each user's meals grouped by week, so the week starting at `start`
holds the user's meals whose date falls in the seven days from `start`. -/
def meals_for_week (start : Int) (user : Nat) (db : List Meal) : List Meal :=
  db.filter fun m =>
    m.owner == some user && decide (start ≤ m.date) && decide (m.date < start + 7)

/-- The context rendered by the schedule template: the insertion-ordered
`meals` dictionary (an association list, preserving insertion order the way
a modern Python dict does) and `current_week_label`. -/
structure ScheduleContext where
  meals : List (String × List Meal)
  current_week_label : String
deriving DecidableEq, Repr

/-- `meal_schedule` (views.py lines 24-57).  `first_day_of_week` lives in
`chef/helpers.py`, outside the provided sources, so it is passed in as an
arbitrary function; `today` is `timezone.now().date()`, and
`userAuth`/`user` model `request.user.is_authenticated` / `request.user`. -/
def meal_schedule (first_day_of_week : Int → Int) (today : Int)
    (userAuth : Bool) (user : Nat) (db : List Meal) : ScheduleContext :=
  let current_week_label := "This week"
  if userAuth then
    let start_of_this_week := first_day_of_week today
    let start_of_last_week := start_of_this_week - 7
    let start_of_next_week := start_of_this_week + 7
    { meals := [("Last week", meals_for_week start_of_last_week user db),
                (current_week_label, meals_for_week start_of_this_week user db),
                ("Next week", meals_for_week start_of_next_week user db)],
      current_week_label := current_week_label }
  else
    { meals := [], current_week_label := current_week_label }

/-! ### `meal_list` (views.py lines 342-345) -/

/-- `meal_list` (views.py lines 342-345): evaluation of
`Meal.objects.order_by("date").filter(owner=request.user)` — the rows owned
by the user, in ascending date order. -/
def meal_list (db : List Meal) (user : Nat) : List Meal :=
  sortLe (fun a b => decide (a.date ≤ b.date)) (db.filter fun m => m.owner == some user)

/-! ### `dish_list` and the suggestion helper (views.py lines 60-76) -/

/-- The date a dish was most recently scheduled as a meal (`none` if it was
never scheduled). -/
def last_scheduled (meals : List Meal) (d : Dish) : Option Int :=
  (meals.filter fun m => m.dish == d.id).foldl
    (fun acc m =>
      match acc with
      | none => some m.date
      | some x => some (max x m.date))
    none

/-- Comparison on last-scheduled dates that puts never-scheduled dishes
first, then earlier last-scheduled dates: least recently scheduled first. -/
def sched_le (a b : Option Int) : Bool :=
  match a, b with
  | none, _ => true
  | some _, none => false
  | some x, some y => decide (x ≤ y)

/-- Modelled from the spec: `suggest_dishes` lives in `chef/helpers.py`,
which is not part of the provided sources.  The spec describes it as:
among the user's dishes not flagged `exclude_from_suggestions`, return
those least recently scheduled as meals (never-scheduled dishes counting as
least recent). -/
def suggest_dishes (user : Nat) (dishes : List Dish) (meals : List Meal) : List Dish :=
  sortLe (fun a b => sched_le (last_scheduled meals a) (last_scheduled meals b))
    ((dishes.filter fun d => d.owner == some user).filter
      fun d => !d.exclude_from_suggestions)

/-- Case-insensitive substring test, modelling Django's `__icontains`. -/
def icontains (hay pat : String) : Bool :=
  let h := hay.data.map Char.toLower
  let p := pat.data.map Char.toLower
  (List.range (h.length + 1)).any fun i => p.isPrefixOf (h.drop i)

/-- The context rendered by the dish-list template. -/
structure DishListContext where
  dishes : List Dish
  dish_suggestions : List Dish
deriving DecidableEq, Repr

/-- `dish_list` (views.py lines 60-76): the user's dishes ordered by
lower-cased title, optionally filtered by the search query `q` against
title or text, plus the suggestion list from `suggest_dishes`. -/
def dish_list (db : List Dish) (meals : List Meal) (user : Nat)
    (q : Option String) : DishListContext :=
  let dishes :=
    sortLe (fun a b => decide (String.mk (a.title.data.map Char.toLower) ≤
                               String.mk (b.title.data.map Char.toLower)))
      (db.filter fun d => d.owner == some user)
  let dishes :=
    match q with
    | none => dishes
    | some query => dishes.filter fun d => icontains d.title query || icontains d.text query
  { dishes := dishes,
    dish_suggestions := suggest_dishes user db meals }

/-! ### `SetOwnerMixin.form_valid` (views.py lines 79-105) -/

/-- Modelled from the spec: the `Dish` model (`chef/models.py`) is not part
of the provided sources; the spec states that `(owner, title)` is unique
per dish.  As in SQL, a row whose owner column is NULL never violates the
constraint, and the row being written does not conflict with itself. -/
def violates_owner_title_unique (db : List Dish) (d : Dish) : Bool :=
  d.owner.isSome &&
    db.any fun r => r.id != d.id && r.owner == d.owner && r.title == d.title

/-- What a request observes after `form_valid` runs: the stored rows, the
warning message (if any) and the redirect target. -/
structure FormValidResult where
  db : List Dish
  warning : Option String
  redirect_to : String
deriving DecidableEq, Repr

/-- `SetOwnerMixin.form_valid` (views.py lines 79-105), for dish creation.
`super().form_valid(form)` first saves the form's object — the form has no
owner field, so the inserted row's owner is NULL.  Then the owner is set
and the object saved a second time; an integrity violation from that
second save is caught, a warning is queued and the response is a redirect
to `request.path`.  Otherwise the response is the superclass redirect to
the success URL. -/
def SetOwnerMixin_form_valid (db : List Dish) (user : Nat) (new_dish : Dish)
    (request_path success_url : String) : FormValidResult :=
  let inserted : Dish := { new_dish with owner := none }
  let db1 := db ++ [inserted]
  let updated : Dish := { inserted with owner := some user }
  if violates_owner_title_unique db1 updated then
    { db := db1,
      warning := some (new_dish.title ++ " was a duplicate, which is not allowed"),
      redirect_to := request_path }
  else
    { db := db1.map fun r => if r.id == inserted.id then updated else r,
      warning := none,
      redirect_to := success_url }

/-! ### `DishCreate.setup` (views.py lines 119-157) -/

/-- The view classes the URL resolver can name; only `MealCreate` matters
to `DishCreate.setup`. -/
inductive ViewClass where
  | mealCreate
  | dishCreate
  | otherClass
deriving DecidableEq, Repr

/-- Outcome of `resolve(path)`: `no_match` models a `Resolver404`,
`function_view` a match whose `func` has no `view_class` attribute (so
reading it raises `AttributeError`), and `class_view c` a match generated
by the class-based view `c`. -/
inductive ResolveResult where
  | no_match
  | function_view
  | class_view (c : ViewClass)
deriving DecidableEq, Repr

/-- Outcome of running `setup`: either it returns normally with the session
in the given state, or an exception escapes it (the session also recorded
as it stood when the exception was raised). -/
inductive SetupResult where
  | ok (session : Option String)
  | uncaught (session : Option String)
deriving DecidableEq, Repr

/-- The session state an outcome leaves behind. -/
def SetupResult.session : SetupResult → Option String
  | .ok s => s
  | .uncaught s => s

/-- Python's `str.split(sep)` on character lists: cut at each leftmost
non-overlapping occurrence of `sep`.  `fuel` bounds the recursion; each
step consumes at least one character once `sep` is non-empty. -/
def py_split_aux (sep : List Char) (fuel : Nat) (xs acc : List Char) :
    List (List Char) :=
  match fuel with
  | 0 => [acc ++ xs]
  | fuel + 1 =>
    match xs with
    | [] => [acc]
    | c :: rest =>
      if sep.isPrefixOf (c :: rest) then
        acc :: py_split_aux sep fuel (List.drop sep.length (c :: rest)) []
      else
        py_split_aux sep fuel rest (acc ++ [c])

/-- Python's `str.split(sep)`.  `none` models the `ValueError` Python
raises when `sep` is empty. -/
def py_split (s sep : String) : Option (List String) :=
  if sep = "" then none
  else some ((py_split_aux sep.data (s.data.length + 1) s.data []).map String.mk)

/-- `DishCreate.setup` (views.py lines 119-157).  `resolve` stands for the
URL resolver (the URLconf is not part of the provided sources, so the
function is arbitrary); `referrer` is `request.META.get("HTTP_REFERER")`,
`host` is `request.get_host()` and `session` is the current value of the
session key `special_success_url`.  The referrer is split on the host and
element `[1]` of the result is taken: when the host does not occur in the
referrer that list has a single element and the index raises an uncaught
`IndexError` (only `Resolver404` and `AttributeError` are caught). -/
def DishCreate_setup (resolve : String → ResolveResult) (referrer : Option String)
    (host : String) (session : Option String) : SetupResult :=
  match referrer with
  | none => .ok session
  | some referring_url =>
    if referring_url = "" then .ok session
    else
      match py_split referring_url host with
      | none => .uncaught session
      | some split_referring_url =>
        match split_referring_url with
        | _ :: referring_path :: _ =>
          match resolve referring_path with
          | .class_view c =>
            if c = ViewClass.mealCreate then .ok (some referring_path)
            else .ok session
          | _ => .ok session
        | _ => .uncaught session

/-! ### `DishCreate.get_success_url` (views.py lines 172-189) -/

/-- Modelled from the spec: the URLconf is not part of the provided
sources, so `reverse("dish-list")` is represented by a fixed path; its
concrete value is immaterial to the claims. -/
def reverse_dish_list : String := "/dish/"

/-- What `get_success_url` produces: the URL returned and the session key
`special_success_url` afterwards. -/
structure SuccessUrlResult where
  url : String
  session : Option String
deriving DecidableEq, Repr

/-- `DishCreate.get_success_url` (views.py lines 172-189): read the session
key; if its value is truthy (a non-empty string) delete the key and return
the value, otherwise return `reverse("dish-list")` leaving the session as
it was. -/
def DishCreate_get_success_url (session : Option String) : SuccessUrlResult :=
  let special_dest := session
  match special_dest with
  | some s =>
    if s = "" then { url := reverse_dish_list, session := session }
    else { url := s, session := none }
  | none => { url := reverse_dish_list, session := session }

/-! ### Ownership tests and guarded dispatch (views.py lines 192-339) -/

/-- `DishUpdate.test_func` (views.py lines 218-221). -/
def DishUpdate_test_func (user : Nat) (dish : Dish) : Bool :=
  some user == dish.owner

/-- `DishDelete.test_func` (views.py lines 235-238). -/
def DishDelete_test_func (user : Nat) (dish : Dish) : Bool :=
  some user == dish.owner

/-- `MealUpdate.test_func` (views.py lines 315-318). -/
def MealUpdate_test_func (user : Nat) (meal : Meal) : Bool :=
  some user == meal.owner

/-- `MealDelete.test_func` (views.py lines 336-339). -/
def MealDelete_test_func (user : Nat) (meal : Meal) : Bool :=
  some user == meal.owner

/-- `UserPassesTestMixin` dispatch for `DishUpdate` with
`raise_exception = True`: when the test fails the request is answered with
permission denied and the stored rows are untouched; otherwise the object
is replaced by the submitted version.  The boolean reports whether access
was allowed. -/
def DishUpdate_dispatch (user : Nat) (dish updated : Dish) (db : List Dish) :
    List Dish × Bool :=
  if DishUpdate_test_func user dish then
    (db.map fun r => if r.id == dish.id then updated else r, true)
  else (db, false)

/-- `UserPassesTestMixin` dispatch for `DishDelete`. -/
def DishDelete_dispatch (user : Nat) (dish : Dish) (db : List Dish) :
    List Dish × Bool :=
  if DishDelete_test_func user dish then
    (db.filter fun r => r.id != dish.id, true)
  else (db, false)

/-- `UserPassesTestMixin` dispatch for `MealUpdate`. -/
def MealUpdate_dispatch (user : Nat) (meal updated : Meal) (db : List Meal) :
    List Meal × Bool :=
  if MealUpdate_test_func user meal then
    (db.map fun r => if r.id == meal.id then updated else r, true)
  else (db, false)

/-- `UserPassesTestMixin` dispatch for `MealDelete`. -/
def MealDelete_dispatch (user : Nat) (meal : Meal) (db : List Meal) :
    List Meal × Bool :=
  if MealDelete_test_func user meal then
    (db.filter fun r => r.id != meal.id, true)
  else (db, false)

/-! ### Lemmas about the insertion sort -/

theorem mem_insertLe {α : Type} (le : α → α → Bool) (x : α) (l : List α) (a : α) :
    a ∈ insertLe le x l ↔ a = x ∨ a ∈ l := by
  induction l with
  | nil => simp [insertLe]
  | cons y ys ih =>
    simp only [insertLe]
    split
    · simp [List.mem_cons]
    · simp only [List.mem_cons, ih]
      tauto

theorem mem_sortLe {α : Type} (le : α → α → Bool) (l : List α) (a : α) :
    a ∈ sortLe le l ↔ a ∈ l := by
  induction l with
  | nil => simp [sortLe]
  | cons x xs ih => simp [sortLe, mem_insertLe, ih]

theorem pairwise_insertLe {α : Type} (le : α → α → Bool)
    (htot : ∀ a b, le a b = true ∨ le b a = true)
    (htrans : ∀ a b c, le a b = true → le b c = true → le a c = true)
    (x : α) (l : List α) (h : l.Pairwise fun a b => le a b = true) :
    (insertLe le x l).Pairwise fun a b => le a b = true := by
  induction l with
  | nil => simp [insertLe]
  | cons y ys ih =>
    rcases List.pairwise_cons.mp h with ⟨hy, hys⟩
    simp only [insertLe]
    split
    case isTrue hxy =>
      refine List.pairwise_cons.mpr ⟨?_, h⟩
      intro b hb
      rcases List.mem_cons.mp hb with rfl | hb
      · exact hxy
      · exact htrans x y b hxy (hy b hb)
    case isFalse hxy =>
      refine List.pairwise_cons.mpr ⟨?_, ih hys⟩
      intro b hb
      rcases (mem_insertLe le x ys b).mp hb with rfl | hb
      · rcases htot b y with h1 | h1
        · exact absurd h1 hxy
        · exact h1
      · exact hy b hb

theorem pairwise_sortLe {α : Type} (le : α → α → Bool)
    (htot : ∀ a b, le a b = true ∨ le b a = true)
    (htrans : ∀ a b c, le a b = true → le b c = true → le a c = true)
    (l : List α) :
    (sortLe le l).Pairwise fun a b => le a b = true := by
  induction l with
  | nil => simp [sortLe]
  | cons x xs ih => exact pairwise_insertLe le htot htrans x _ ih

theorem sched_le_total (a b : Option Int) :
    sched_le a b = true ∨ sched_le b a = true := by
  rcases a with _ | x
  · exact Or.inl rfl
  · rcases b with _ | y
    · exact Or.inr rfl
    · simp only [sched_le, decide_eq_true_eq]
      omega

theorem sched_le_trans (a b c : Option Int)
    (h1 : sched_le a b = true) (h2 : sched_le b c = true) :
    sched_le a c = true := by
  rcases a with _ | x
  · rfl
  · rcases b with _ | y
    · exact absurd h1 (by simp [sched_le])
    · rcases c with _ | z
      · exact absurd h2 (by simp [sched_le])
      · simp only [sched_le, decide_eq_true_eq] at h1 h2 ⊢
        omega

/-! ### Claim theorems -/

/-- C4: for every system date and every authenticated user, the
`meal_schedule` view's `meals` mapping presents its week groups in exactly
the iteration order "Last week", "This week", "Next week". -/
theorem meal_schedule_week_order (first_day_of_week : Int → Int) (today : Int)
    (user : Nat) (db : List Meal) :
    ((meal_schedule first_day_of_week today true user db).meals.map Prod.fst) =
      ["Last week", "This week", "Next week"] := rfl

/-- C5: for every value of today's date, `meal_schedule` computes the three
displayed week starts as the first day of this week, that value minus
exactly 7 days, and that value plus exactly 7 days; the displayed groups
are the user's meals for precisely those three week starts. -/
theorem meal_schedule_week_starts (first_day_of_week : Int → Int) (today : Int)
    (user : Nat) (db : List Meal) :
    (meal_schedule first_day_of_week today true user db).meals =
      [("Last week", meals_for_week (first_day_of_week today - 7) user db),
       ("This week", meals_for_week (first_day_of_week today) user db),
       ("Next week", meals_for_week (first_day_of_week today + 7) user db)] := rfl

/-- C10: for every request by an unauthenticated user, `meal_schedule`
renders an empty `meals` mapping and `current_week_label = "This week"`,
and the result does not depend on the stored meals at all (no meal
queries are performed). -/
theorem meal_schedule_unauthenticated (first_day_of_week : Int → Int) (today : Int)
    (user : Nat) (db db2 : List Meal) :
    meal_schedule first_day_of_week today false user db =
      { meals := [], current_week_label := "This week" } ∧
    meal_schedule first_day_of_week today false user db =
      meal_schedule first_day_of_week today false user db2 :=
  ⟨rfl, rfl⟩

/-- C2 counterexample: a session that contains `special_success_url` bound
to the empty string falsifies the claim — the code tests the value for
Python truthiness, so it returns the dish-list URL, not the stored path,
and does not remove the key. -/
theorem dishCreate_success_url_empty_value :
    ¬ ((DishCreate_get_success_url (some "")).url = "" ∧
       (DishCreate_get_success_url (some "")).session = none) ∧
    DishCreate_get_success_url (some "") =
      { url := reverse_dish_list, session := some "" } := by
  constructor
  · decide
  · rfl

/-- C2 (amended): if the session holds a non-empty value under
`special_success_url`, `get_success_url` returns that path and removes the
key, so an immediately following call returns the dish-list URL; if the
key is absent, or its value is the empty string, it returns the dish-list
URL and leaves the session unchanged. -/
theorem dishCreate_success_url_read_once (p : String) (hp : p ≠ "") :
    DishCreate_get_success_url (some p) = { url := p, session := none } ∧
    DishCreate_get_success_url (DishCreate_get_success_url (some p)).session =
      { url := reverse_dish_list, session := none } ∧
    DishCreate_get_success_url none = { url := reverse_dish_list, session := none } ∧
    DishCreate_get_success_url (some "") =
      { url := reverse_dish_list, session := some "" } := by
  refine ⟨?_, ?_, rfl, rfl⟩ <;> simp [DishCreate_get_success_url, hp]

/-- C2 witness: the read-once behaviour at the concrete stored path
`/meal/add/`. -/
theorem dishCreate_success_url_read_once_witness :
    DishCreate_get_success_url (some "/meal/add/") =
      { url := "/meal/add/", session := none } :=
  (dishCreate_success_url_read_once "/meal/add/" (by decide)).1

/-- C9: for each of `DishUpdate`, `DishDelete`, `MealUpdate` and
`MealDelete`, the access test succeeds exactly when the requesting user is
the stored object's owner, and a failing test denies the operation leaving
the stored rows untouched. -/
theorem ownership_access (user : Nat) (dish updated : Dish) (meal mupdated : Meal)
    (ddb : List Dish) (mdb : List Meal) :
    (DishUpdate_test_func user dish = true ↔ some user = dish.owner) ∧
    (DishDelete_test_func user dish = true ↔ some user = dish.owner) ∧
    (MealUpdate_test_func user meal = true ↔ some user = meal.owner) ∧
    (MealDelete_test_func user meal = true ↔ some user = meal.owner) ∧
    (DishUpdate_test_func user dish = false →
      DishUpdate_dispatch user dish updated ddb = (ddb, false)) ∧
    (DishDelete_test_func user dish = false →
      DishDelete_dispatch user dish ddb = (ddb, false)) ∧
    (MealUpdate_test_func user meal = false →
      MealUpdate_dispatch user meal mupdated mdb = (mdb, false)) ∧
    (MealDelete_test_func user meal = false →
      MealDelete_dispatch user meal mdb = (mdb, false)) := by
  refine ⟨?_, ?_, ?_, ?_, ?_, ?_, ?_, ?_⟩
  · simp [DishUpdate_test_func]
  · simp [DishDelete_test_func]
  · simp [MealUpdate_test_func]
  · simp [MealDelete_test_func]
  · intro h; simp [DishUpdate_dispatch, h]
  · intro h; simp [DishDelete_dispatch, h]
  · intro h; simp [MealUpdate_dispatch, h]
  · intro h; simp [MealDelete_dispatch, h]

/-- C9 witness: a user who does not own a dish is denied the update and
the stored rows are unchanged. -/
theorem ownership_access_witness :
    DishUpdate_dispatch 1 ⟨5, some 2, "t", "x", false⟩ ⟨5, some 1, "u", "y", false⟩
        [⟨5, some 2, "t", "x", false⟩] =
      ([⟨5, some 2, "t", "x", false⟩], false) :=
  (ownership_access 1 ⟨5, some 2, "t", "x", false⟩ ⟨5, some 1, "u", "y", false⟩
      ⟨0, 0, 0, none⟩ ⟨0, 0, 0, none⟩
      [⟨5, some 2, "t", "x", false⟩] []).2.2.2.2.1 (by decide)

/-- C1 counterexample: user 7 already owns a dish titled "Soup" and submits
a second "Soup".  The integrity violation is caught, the warning is issued
and the response redirects to the form path, but the stored rows are not
as they were before the attempt: the first save (performed before the
owner is set) has left behind a row with no owner. -/
theorem form_valid_duplicate_leaves_row :
    (SetOwnerMixin_form_valid [⟨1, some 7, "Soup", "", false⟩] 7
        ⟨2, none, "Soup", "", false⟩ "/dish/add/" "/dish/").warning =
      some "Soup was a duplicate, which is not allowed" ∧
    (SetOwnerMixin_form_valid [⟨1, some 7, "Soup", "", false⟩] 7
        ⟨2, none, "Soup", "", false⟩ "/dish/add/" "/dish/").redirect_to =
      "/dish/add/" ∧
    (SetOwnerMixin_form_valid [⟨1, some 7, "Soup", "", false⟩] 7
        ⟨2, none, "Soup", "", false⟩ "/dish/add/" "/dish/").db ≠
      [⟨1, some 7, "Soup", "", false⟩] := by
  refine ⟨rfl, rfl, ?_⟩
  decide

/-- C1 (amended): when saving a dish whose (owner, title) duplicates an
existing row, `form_valid` catches the integrity violation, issues the
duplicate warning, redirects back to the request path, and no second row
owned by the requesting user with that title is created — but the row
inserted by the first save remains, with its owner unset, so the database
is not exactly as it was before the attempt. -/
theorem form_valid_duplicate_caught (db : List Dish) (user : Nat) (new_dish : Dish)
    (path su : String)
    (hfresh : ∀ r ∈ db, r.id ≠ new_dish.id)
    (hdup : ∃ r ∈ db, r.owner = some user ∧ r.title = new_dish.title) :
    (SetOwnerMixin_form_valid db user new_dish path su).warning =
      some (new_dish.title ++ " was a duplicate, which is not allowed") ∧
    (SetOwnerMixin_form_valid db user new_dish path su).redirect_to = path ∧
    (SetOwnerMixin_form_valid db user new_dish path su).db =
      db ++ [{ new_dish with owner := none }] ∧
    ((SetOwnerMixin_form_valid db user new_dish path su).db.countP
        fun r => r.owner == some user && r.title == new_dish.title) =
      db.countP fun r => r.owner == some user && r.title == new_dish.title := by
  have hviol :
      violates_owner_title_unique (db ++ [{ new_dish with owner := none }])
        { new_dish with owner := some user } = true := by
    rcases hdup with ⟨r, hr, hro, hrt⟩
    simp only [violates_owner_title_unique, Option.isSome_some, Bool.true_and,
      List.any_eq_true, List.mem_append, List.mem_singleton]
    refine ⟨r, Or.inl hr, ?_⟩
    simp [hro, hrt, hfresh r hr]
  simp only [SetOwnerMixin_form_valid, hviol, if_true]
  refine ⟨trivial, trivial, trivial, ?_⟩
  have hnew : (({ new_dish with owner := none } : Dish).owner == some user &&
      ({ new_dish with owner := none } : Dish).title == new_dish.title) = false := by
    simp
  simp [List.countP_append, List.countP_cons, hnew]

/-- C1 witness: the amended behaviour at the concrete duplicate "Soup". -/
theorem form_valid_duplicate_caught_witness :
    (SetOwnerMixin_form_valid [⟨1, some 7, "Soup", "", false⟩] 7
        ⟨2, none, "Soup", "yum", false⟩ "/dish/add/" "/dish/").warning =
      some ("Soup" ++ " was a duplicate, which is not allowed") :=
  (form_valid_duplicate_caught [⟨1, some 7, "Soup", "", false⟩] 7
      ⟨2, none, "Soup", "yum", false⟩ "/dish/add/" "/dish/"
      (by decide) (by decide)).1

/-- C6: for every user, database state and search query, the suggestion
list shown on the dish-list page contains no dish whose
`exclude_from_suggestions` flag is set; it consists exactly of the user's
unflagged dishes, ordered least recently scheduled first. -/
theorem dish_list_suggestions_exclude (user : Nat) (db : List Dish)
    (meals : List Meal) (q : Option String) :
    (∀ d ∈ (dish_list db meals user q).dish_suggestions,
       d.exclude_from_suggestions = false) ∧
    (∀ d, d ∈ (dish_list db meals user q).dish_suggestions ↔
       d ∈ db ∧ d.owner = some user ∧ d.exclude_from_suggestions = false) ∧
    ((dish_list db meals user q).dish_suggestions).Pairwise
      (fun a b => sched_le (last_scheduled meals a) (last_scheduled meals b) = true) := by
  have hds : (dish_list db meals user q).dish_suggestions =
      suggest_dishes user db meals := rfl
  have hmem : ∀ d, d ∈ suggest_dishes user db meals ↔
      d ∈ db ∧ d.owner = some user ∧ d.exclude_from_suggestions = false := by
    intro d
    simp only [suggest_dishes, mem_sortLe, List.mem_filter, Bool.and_eq_true,
      beq_iff_eq, Bool.not_eq_true']
    tauto
  refine ⟨?_, ?_, ?_⟩
  · intro d hd
    exact (((hmem d).mp (hds ▸ hd)).2).2
  · intro d
    rw [hds]
    exact hmem d
  · rw [hds]
    exact pairwise_sortLe
      (fun a b => sched_le (last_scheduled meals a) (last_scheduled meals b))
      (fun a b => sched_le_total (last_scheduled meals a) (last_scheduled meals b))
      (fun a b c h1 h2 => sched_le_trans (last_scheduled meals a)
        (last_scheduled meals b) (last_scheduled meals c) h1 h2)
      ((db.filter fun d => d.owner == some user).filter
        fun d => !d.exclude_from_suggestions)

/-- C6 witness: an unflagged dish of the user appears in the suggestions
(the flagged companion does not, by the same equivalence). -/
theorem dish_list_suggestions_exclude_witness :
    (⟨1, some 7, "A", "", false⟩ : Dish) ∈
      (dish_list [⟨1, some 7, "A", "", false⟩, ⟨2, some 7, "B", "", true⟩]
        [] 7 none).dish_suggestions :=
  ((dish_list_suggestions_exclude 7
      [⟨1, some 7, "A", "", false⟩, ⟨2, some 7, "B", "", true⟩] [] none).2.1
    ⟨1, some 7, "A", "", false⟩).mpr ⟨by decide, rfl, rfl⟩

/-- C8: `meal_list` returns exactly the requesting user's meals in
ascending date order, and every week group of the schedule holds only the
requesting user's meals. -/
theorem meal_queries_owner_scoped (db : List Meal) (user : Nat) :
    (∀ m, m ∈ meal_list db user ↔ m ∈ db ∧ m.owner = some user) ∧
    (meal_list db user).Pairwise (fun a b => a.date ≤ b.date) ∧
    (∀ first_day_of_week today,
       ∀ p ∈ (meal_schedule first_day_of_week today true user db).meals,
         ∀ m ∈ p.2, m.owner = some user) := by
  refine ⟨?_, ?_, ?_⟩
  · intro m
    simp [meal_list, mem_sortLe, List.mem_filter]
  · have h := pairwise_sortLe (fun a b : Meal => decide (a.date ≤ b.date))
      (fun a b => by simp; omega)
      (fun a b c h1 h2 => by simp at *; omega)
      (db.filter fun m => m.owner == some user)
    exact h.imp fun hab => of_decide_eq_true hab
  · intro fdow today p hp m hm
    simp only [meal_schedule, if_true, List.mem_cons, List.not_mem_nil, or_false] at hp
    rcases hp with rfl | rfl | rfl <;>
      · simp only [meals_for_week, List.mem_filter, Bool.and_eq_true, beq_iff_eq] at hm
        exact hm.2.1.1

/-- C8 witness: a concrete meal of user 7 is in the user's `meal_list`. -/
theorem meal_queries_owner_scoped_witness :
    (⟨1, 4, 0, some 7⟩ : Meal) ∈ meal_list [⟨1, 4, 0, some 7⟩] 7 :=
  ((meal_queries_owner_scoped [⟨1, 4, 0, some 7⟩] 7).1 ⟨1, 4, 0, some 7⟩).mpr
    ⟨by decide, rfl⟩

/-- C7: `DishCreate.setup` writes the session key `special_success_url`
exactly when the referrer is present and element `[1]` of splitting it on
the host is a path the resolver maps to the `MealCreate` view class; the
value written is that path, and no other referrer changes the key. -/
theorem dishCreate_setup_stores_iff (resolve : String → ResolveResult)
    (referrer : Option String) (host : String) (session : Option String) :
    (∀ r hd p rest, referrer = some r → r ≠ "" →
        py_split r host = some (hd :: p :: rest) →
        resolve p = ResolveResult.class_view ViewClass.mealCreate →
        DishCreate_setup resolve referrer host session = SetupResult.ok (some p)) ∧
    ((DishCreate_setup resolve referrer host session).session ≠ session →
        ∃ r hd p rest, referrer = some r ∧ r ≠ "" ∧
          py_split r host = some (hd :: p :: rest) ∧
          resolve p = ResolveResult.class_view ViewClass.mealCreate ∧
          DishCreate_setup resolve referrer host session =
            SetupResult.ok (some p)) := by
  constructor
  · intro r hd p rest h1 h2 h3 h4
    subst h1
    simp [DishCreate_setup, h2, h3, h4]
  · intro hne
    rcases href : referrer with _ | r
    · subst href
      simp [DishCreate_setup, SetupResult.session] at hne
    · subst href
      by_cases hr : r = ""
      · simp [DishCreate_setup, hr, SetupResult.session] at hne
      · rcases hps : py_split r host with _ | parts
        · simp [DishCreate_setup, hr, hps, SetupResult.session] at hne
        · rcases parts with _ | ⟨hd, _ | ⟨p, rest⟩⟩
          · simp [DishCreate_setup, hr, hps, SetupResult.session] at hne
          · simp [DishCreate_setup, hr, hps, SetupResult.session] at hne
          · rcases hres : resolve p with _ | _ | c
            · simp [DishCreate_setup, hr, hps, hres, SetupResult.session] at hne
            · simp [DishCreate_setup, hr, hps, hres, SetupResult.session] at hne
            · by_cases hc : c = ViewClass.mealCreate
              · subst hc
                exact ⟨r, hd, p, rest, rfl, hr, hps, hres, by
                  simp [DishCreate_setup, hr, hps, hres]⟩
              · simp [DishCreate_setup, hr, hps, hres, hc, SetupResult.session] at hne

/-- C7 witness: a referrer generated by the meal-creation page on the
request's own host stores that page's path in the session. -/
theorem dishCreate_setup_stores_iff_witness :
    DishCreate_setup
      (fun p => if p = "/meal/add/" then ResolveResult.class_view ViewClass.mealCreate
                else ResolveResult.no_match)
      (some "http://example.com/meal/add/") "example.com" none =
      SetupResult.ok (some "/meal/add/") :=
  (dishCreate_setup_stores_iff
      (fun p => if p = "/meal/add/" then ResolveResult.class_view ViewClass.mealCreate
                else ResolveResult.no_match)
      (some "http://example.com/meal/add/") "example.com" none).1
    "http://example.com/meal/add/" "http://" "/meal/add/" []
    rfl (by decide) (by decide) (by decide)

/-- C3: evaluating `DishCreate.setup` on a referrer that does not contain
the request's host: `referring_url.split(hostname)` yields a single-element
list, taking index `[1]` raises an `IndexError`, and that exception is not
among the ones the method catches, so `setup` raises instead of silently
ignoring the referrer. -/
theorem dishCreate_setup_offhost_uncaught :
    DishCreate_setup (fun _ => ResolveResult.no_match)
      (some "https://evil.example.org/page") "example.com" none =
      SetupResult.uncaught none := by
  decide
